/-
Verification of the django_checklist repository's specified behaviour against a
shallow Lean embedding of its service and model code.

Conventions used throughout:
  * Django model rows become Lean structures; a table is a `List` of rows.
  * Auto-increment primary keys are modelled by a single `nextId` counter per
    database value; every insert consumes it.  `created_at` / `updated_at`
    timestamps managed by the framework are not modelled; where wall-clock
    time matters (LessonProgress.completed_at) an explicit `now : Nat`
    argument stands for `timezone.now()`.
  * Python `FloatField` values are modelled as `Rat`; the properties proved
    here depend only on `max`, `min`, comparison and division by a positive
    constant, which floating point evaluates with the same control flow.
  * Fallible operations (ORM inserts that can violate NOT NULL or UNIQUE
    constraints, service-level ValidationError raises) return `Except Err _`.
  * `@transaction.atomic` is modelled by a `run…` wrapper that commits the
    final state on success and yields the entry state on error.
-/
import Mathlib

namespace LMS

/-! ### lms/models.py — LessonProgress

`LessonProgress.session_data` is a JSON dict; the keys written by
`video_update_progress` are modelled as explicit optional fields.  A missing
`"max_time_reached"` key corresponds to `none` (Python `dict.get` default 0 is
applied at the read site, as in the source). -/

structure SessionData where
  duration : Option Rat
  current_time : Option Rat
  max_time_reached : Option Rat
  last_update_at : Option Nat
  deriving Repr, DecidableEq

/-- One `LessonProgress` row.  `completionLogs` counts the `ActivityLog`
rows written by `mark_completed` (action `"completed_lesson"`), so that
"marked completed exactly once" is observable in the model. -/
structure LessonProgress where
  is_completed : Bool
  completed_at : Option Nat
  progress_value : Rat
  session_data : SessionData
  completionLogs : Nat
  deriving Repr, DecidableEq

/-- `LessonProgress.mark_completed` (lms/models.py lines 152-164): only acts
when the record is not yet completed; stamps `completed_at` with the current
time and writes one ActivityLog row. -/
def mark_completed (now : Nat) (lp : LessonProgress) : LessonProgress :=
  if !lp.is_completed then
    { lp with
      is_completed := true
      completed_at := some now
      completionLogs := lp.completionLogs + 1 }
  else
    lp

/-- `LessonProgress.video_update_progress` (lms/models.py lines 167-186).
`max_time = max(session_data.get("max_time_reached", 0), current_time)`;
progress is `(max_time / duration) * 100` capped at 100; reaching 70 or more
calls `mark_completed`.  (Python would raise ZeroDivisionError for
`duration = 0`; the claims below only use positive durations.) -/
def video_update_progress (now : Nat) (current_time duration : Rat)
    (lp : LessonProgress) : LessonProgress :=
  let max_time := max (lp.session_data.max_time_reached.getD 0) current_time
  let session' : SessionData :=
    { duration := some duration
      current_time := some current_time
      max_time_reached := some max_time
      last_update_at := some now }
  let progress := (max_time / duration) * 100
  let lp' := { lp with
    session_data := session'
    progress_value := min progress 100 }
  if lp'.progress_value ≥ 70 then mark_completed now lp' else lp'

/-- Replay a sequence of `(now, current_time)` updates against a fixed
`duration`, in submission order. -/
def runVideoUpdates (duration : Rat) : List (Nat × Rat) → LessonProgress → LessonProgress
  | [], lp => lp
  | (now, t) :: rest, lp => runVideoUpdates duration rest (video_update_progress now t duration lp)

/-- The stored maximum after replaying updates, read the way the code reads it
(`session_data.get("max_time_reached", 0)`). -/
def storedMax (lp : LessonProgress) : Rat :=
  lp.session_data.max_time_reached.getD 0

/-- A fresh `LessonProgress` row as Django defaults create it. -/
def initialProgress : LessonProgress :=
  { is_completed := false
    completed_at := none
    progress_value := 0
    session_data := ⟨none, none, none, none⟩
    completionLogs := 0 }

end LMS

namespace LearningMS

/-! ### learningMS/models.py — Question / Answer auto-grading, and
learningMS/services.py — ReviewService ownership checks. -/

/-- Drop leading and trailing whitespace characters from a character list:
Python `str.strip()` restricted to the ASCII whitespace the repository's
answer strings use. -/
def stripChars (l : List Char) : List Char :=
  ((l.dropWhile Char.isWhitespace).reverse.dropWhile Char.isWhitespace).reverse

/-- Python `s.strip().lower()`, the normalization both sides of the MCQ
comparison receive in `Answer.save` (ASCII case folding, which is what the
stored choice markers use). -/
def pyNormalize (s : String) : String := ⟨(stripChars s.data).map Char.toLower⟩

/-- The fields of `Question` that `Answer.save` reads (learningMS/models.py
lines 520-560). -/
structure Question where
  id : Nat
  question_type : String
  correct_answer : String
  deriving Repr, DecidableEq

/-- One `Answer` row (learningMS/models.py lines 635-687). -/
structure AnswerRow where
  attempt : Nat
  question : Nat
  answer_text : String
  is_correct : Bool
  deriving Repr, DecidableEq

/-- `Answer.save` (learningMS/models.py lines 680-687): for an MCQ question,
`is_correct` is recomputed from the question's stored `correct_answer` at the
moment of the save; other question types leave the field as is. -/
def answerSaveGrade (q : Question) (a : AnswerRow) : AnswerRow :=
  if q.question_type == "mcq" then
    { a with is_correct := pyNormalize a.answer_text == pyNormalize q.correct_answer }
  else
    a

/-- The quiz tables touched by saving and grading answers. -/
structure QuizDb where
  questions : List Question
  answers : List AnswerRow
  deriving Repr, DecidableEq

/-- Saving a new answer: look the question up, run `Answer.save` on a fresh
row (model default `is_correct = False`), and store the row. -/
def saveAnswer (db : QuizDb) (attempt qid : Nat) (text : String) : Option QuizDb :=
  match db.questions.find? (fun q => q.id == qid) with
  | none => none
  | some q =>
    some { db with answers := db.answers ++ [answerSaveGrade q ⟨attempt, qid, text, false⟩] }

/-- Editing a question's `correct_answer` afterwards touches only the
question row; `Answer.save` is not re-run on stored answers. -/
def editCorrectAnswer (db : QuizDb) (qid : Nat) (newAnswer : String) : QuizDb :=
  { db with questions := db.questions.map
              (fun q => if q.id == qid then { q with correct_answer := newAnswer } else q) }

/-- The acting user as `ReviewService` sees it: `request.user`, with the
staff flag available on the Django user model. -/
structure UserAccount where
  id : Nat
  is_staff : Bool
  deriving Repr, DecidableEq

/-- One `Review` row; `crew_member_user` is `review.crew_member.user`, the
original creator the service compares against. -/
structure Review where
  id : Nat
  crew_member_user : Nat
  rating : Nat
  comment : String
  deriving Repr, DecidableEq

/-- The `validated_data` dict passed to `update_review`; present keys are
applied with `setattr`. -/
structure ReviewData where
  rating : Option Nat
  comment : Option String
  deriving Repr, DecidableEq

inductive SvcError where
  | validationError (msg : String)
  deriving Repr, DecidableEq

def applyReviewData (d : ReviewData) (r : Review) : Review :=
  { r with rating := d.rating.getD r.rating, comment := d.comment.getD r.comment }

/-- `ReviewService.update_review` (learningMS/services.py lines 355-366): the
only gate is `review.crew_member.user != user`; there is no staff branch. -/
def update_review (review : Review) (user : UserAccount) (d : ReviewData) :
    Except SvcError Review :=
  if review.crew_member_user != user.id then
    .error (.validationError "You can only update your own review.")
  else
    .ok (applyReviewData d review)

/-- `ReviewService.delete_review` (learningMS/services.py lines 368-375). -/
def delete_review (review : Review) (user : UserAccount) : Except SvcError Unit :=
  if review.crew_member_user != user.id then
    .error (.validationError "You can only delete your own review.")
  else
    .ok ()

end LearningMS

namespace Checklist

/-! ### checklist/models.py and checklist/services.py

Tables are lists of rows; a single `nextId` counter allocates primary keys
(every insert consumes it, so ids are fresh across tables — a faithful
abstraction of per-table auto-increment sequences).

Payload dictionaries become structures of `Option` fields: `none` is an
absent key.  A present-but-`null` scalar key is not distinguished from an
absent one except where the source itself normalizes (`payload.get(k) or []`
for `roles` / `sections` / `items`, which maps null to the empty list).

Failures are `Err`: `validationError` for raised `ValidationError`s,
`rolesNotFound` for the structured roles error of lines 306-308 / 389-391
(carrying the set of listed ids with no matching row, which Python formats
into the message), and `integrityError` for database constraint violations
(NOT NULL on a missing `name`/`phase`, or the `unique_together
('name', 'checklist_type')` constraint on `Checklist`; SQL treats NULL as
distinct, so rows with no checklist type never conflict). -/

inductive Err where
  | validationError (field msg : String)
  | rolesNotFound (missing : List Nat)
  | integrityError
  deriving Repr, DecidableEq

structure RoleRow where
  id : Nat
  name : String
  deriving Repr, DecidableEq

structure ChecklistTypeRow where
  id : Nat
  name : String
  description : String
  created_by : Nat
  deriving Repr, DecidableEq

structure ChecklistRow where
  id : Nat
  name : String
  description : String
  phase : String
  notes : String
  checklist_type : Option Nat
  roles : List Nat
  created_by : Nat
  updated_by : Nat
  deriving Repr, DecidableEq

structure SectionRow where
  id : Nat
  checklist : Nat
  name : String
  description : String
  order : Nat
  created_by : Nat
  deriving Repr, DecidableEq

/-- One `ListItem` row; `section_id` is the `section` foreign key (`section`
is a reserved word in Lean). -/
structure ListItemRow where
  id : Nat
  section_id : Nat
  name : String
  description : String
  created_by : Nat
  deriving Repr, DecidableEq

inductive ProgressStatus where
  | pending
  | in_progress
  | completed
  | blocked
  deriving Repr, DecidableEq

/-- One `ChecklistProgress` row; `item` is the nullable `items` foreign key. -/
structure ProgressRow where
  id : Nat
  checklist : Nat
  item : Option Nat
  status : ProgressStatus
  user : Nat
  deriving Repr, DecidableEq

structure Db where
  roles : List RoleRow
  checklistTypes : List ChecklistTypeRow
  checklists : List ChecklistRow
  sections : List SectionRow
  items : List ListItemRow
  progress : List ProgressRow
  nextId : Nat
  deriving Repr, DecidableEq

structure ItemPayload where
  name : Option String
  description : Option String
  deriving Repr, DecidableEq

structure SectionPayload where
  name : Option String
  description : Option String
  order : Option Nat
  items : Option (List ItemPayload)
  deriving Repr, DecidableEq

structure CTPayload where
  id : Option Nat
  name : Option String
  description : Option String
  deriving Repr, DecidableEq

structure ChecklistPayload where
  name : Option String
  description : Option String
  phase : Option String
  notes : Option String
  checklist_type : Option CTPayload
  roles : Option (List Nat)
  sections : Option (List SectionPayload)
  deriving Repr, DecidableEq

/-- Python truthiness of `dict.get('id')`: absent, null and 0 are falsy. -/
def pyTruthyNat : Option Nat → Bool
  | none => false
  | some n => n != 0

/-- Python truthiness of `dict.get('name')`: absent, null and "" are falsy. -/
def pyTruthyStr : Option String → Bool
  | none => false
  | some s => s != ""

/-- Python `str.strip()` (see `LearningMS.stripChars`). -/
def stripStr (s : String) : String := ⟨LearningMS.stripChars s.data⟩

/-- The resolve-or-create step for `checklist_type` in the create path
(services.py lines 267-290).  `race` models a concurrent transaction
committing a row with the same name between the SELECT and the INSERT inside
`get_or_create`: the insert then raises IntegrityError, and the `except`
branch re-fetches the now-existing row and uses it (line 288). -/
def resolveCtCreate (user : Nat) (ctp? : Option CTPayload) (race : Bool) (db : Db) :
    Except Err (Db × Option Nat) :=
  match ctp? with
  | none => .ok (db, none)
  | some ctp =>
    if pyTruthyNat ctp.id then
      match db.checklistTypes.find? (fun r => r.id == ctp.id.getD 0) with
      | some row => .ok (db, some row.id)
      | none => .error (.validationError "checklist_type"
          "ChecklistType with provided id does not exist.")
    else if pyTruthyStr ctp.name then
      let nm := stripStr (ctp.name.getD "")
      match db.checklistTypes.find? (fun r => r.name == nm) with
      | some row => .ok (db, some row.id)
      | none =>
        if race then
          -- the concurrent writer's committed row; our insert raised, the
          -- except branch fetched this row and assigned it
          let row : ChecklistTypeRow := ⟨db.nextId, nm, "", 0⟩
          .ok ({ db with checklistTypes := db.checklistTypes ++ [row],
                         nextId := db.nextId + 1 }, some row.id)
        else
          let row : ChecklistTypeRow := ⟨db.nextId, nm, ctp.description.getD "", user⟩
          .ok ({ db with checklistTypes := db.checklistTypes ++ [row],
                         nextId := db.nextId + 1 }, some row.id)
    else .ok (db, none)

/-- The same step in the update path (services.py lines 362-379).  The
difference to the create path sits in the IntegrityError branch: lines
377-379 fetch the existing row into the local `ct` and validate it, but the
assignment `checklist.checklist_type = ct` appears only inside the `try`
(line 375), so on the race the checklist keeps its `current` type. -/
def resolveCtUpdate (user : Nat) (ctp? : Option CTPayload) (race : Bool)
    (current : Option Nat) (db : Db) : Except Err (Db × Option Nat) :=
  match ctp? with
  | none => .ok (db, current)
  | some ctp =>
    if pyTruthyNat ctp.id then
      match db.checklistTypes.find? (fun r => r.id == ctp.id.getD 0) with
      | some row => .ok (db, some row.id)
      | none => .error (.validationError "checklist_type"
          "ChecklistType with provided id does not exist.")
    else if pyTruthyStr ctp.name then
      let nm := stripStr (ctp.name.getD "")
      match db.checklistTypes.find? (fun r => r.name == nm) with
      | some row => .ok (db, some row.id)
      | none =>
        if race then
          -- IntegrityError: the fetched row exists, no ValidationError is
          -- raised — but it is never assigned, so `current` stays
          let row : ChecklistTypeRow := ⟨db.nextId, nm, "", 0⟩
          .ok ({ db with checklistTypes := db.checklistTypes ++ [row],
                         nextId := db.nextId + 1 }, current)
        else
          let row : ChecklistTypeRow := ⟨db.nextId, nm, ctp.description.getD "", user⟩
          .ok ({ db with checklistTypes := db.checklistTypes ++ [row],
                         nextId := db.nextId + 1 }, some row.id)
    else .ok (db, current)

/-- `Checklist.objects.create` (lines 292-300): NOT NULL on `name` and
`phase`; `unique_together ('name', 'checklist_type')` fires only when the
type is non-NULL. -/
def createChecklistRow (user : Nat) (p : ChecklistPayload) (ctId : Option Nat)
    (db : Db) : Except Err (Db × Nat) :=
  match p.name, p.phase with
  | some nm, some ph =>
    if ctId.isSome && db.checklists.any (fun c => c.name == nm && c.checklist_type == ctId) then
      .error .integrityError
    else
      let cid := db.nextId
      let row : ChecklistRow :=
        ⟨cid, nm, p.description.getD "", ph, p.notes.getD "", ctId, [], user, user⟩
      .ok ({ db with checklists := db.checklists ++ [row], nextId := db.nextId + 1 }, cid)
  | _, _ => .error .integrityError

/-- `Role.objects.filter(id__in=role_ids)` projected to ids. -/
def rolesFound (db : Db) (ids : List Nat) : List Nat :=
  (db.roles.filter (fun r => ids.contains r.id)).map (fun r => r.id)

/-- `set(role_ids) - set(found ids)` (line 307); the model keeps the listed
order of first occurrences rather than sorting. -/
def missingRoles (db : Db) (ids : List Nat) : List Nat :=
  (ids.filter (fun i => !(db.roles.any (fun r => r.id == i)))).dedup

/-- The role existence check of lines 304-308 / 387-391: compare the count
of matching rows against the length of the raw id list. -/
def checkRoles (db : Db) (ids : List Nat) : Except Err (List Nat) :=
  if (rolesFound db ids).length != ids.length then
    .error (.rolesNotFound (missingRoles db ids))
  else
    .ok (rolesFound db ids)

def setChecklistRoles (db : Db) (cid : Nat) (rs : List Nat) : Db :=
  { db with checklists :=
      db.checklists.map (fun c => if c.id == cid then { c with roles := rs } else c) }

/-- Lines 302-309: `payload.get('roles') or []`, skipped when falsy, else
checked and `checklist.roles.set(roles_qs)`. -/
def applyRolesCreate (cid : Nat) (ids : List Nat) (db : Db) : Except Err Db :=
  if ids.isEmpty then .ok db
  else
    match checkRoles db ids with
    | .error e => .error e
    | .ok rs => .ok (setChecklistRoles db cid rs)

/-- `ListItem.objects.bulk_create` for one section (lines 323-334): every
item row needs a non-NULL `name`. -/
def bulkCreateItems (user sid : Nat) : List ItemPayload → Db → Except Err Db
  | [], db => .ok db
  | it :: rest, db =>
    match it.name with
    | none => .error .integrityError
    | some nm =>
      bulkCreateItems user sid rest
        { db with items := db.items ++ [⟨db.nextId, sid, nm, it.description.getD "", user⟩],
                  nextId := db.nextId + 1 }

/-- The section loop of lines 312-334 / 400-421: create each section row
(`order=sec.get('order', 0)`, NOT NULL `name`), then its items. -/
def createSections (user cid : Nat) : List SectionPayload → Db → Except Err Db
  | [], db => .ok db
  | sec :: rest, db =>
    match sec.name with
    | none => .error .integrityError
    | some nm =>
      let sid := db.nextId
      let row : SectionRow := ⟨sid, cid, nm, sec.description.getD "", sec.order.getD 0, user⟩
      let db' := { db with sections := db.sections ++ [row], nextId := db.nextId + 1 }
      match bulkCreateItems user sid (sec.items.getD []) db' with
      | .error e => .error e
      | .ok db'' => createSections user cid rest db''

/-- `ChecklistService.create_full_checklist` (services.py lines 256-341).
The trailing `except` clauses of lines 337-341 re-raise, so every failure
propagates out of the `@transaction.atomic` block (see `runCreateFull`). -/
def create_full_checklist (user : Nat) (p : ChecklistPayload) (db : Db) :
    Except Err (Nat × Db) :=
  match resolveCtCreate user p.checklist_type false db with
  | .error e => .error e
  | .ok (db1, ctId) =>
    match createChecklistRow user p ctId db1 with
    | .error e => .error e
    | .ok (db2, cid) =>
      match applyRolesCreate cid (p.roles.getD []) db2 with
      | .error e => .error e
      | .ok db3 =>
        match createSections user cid (p.sections.getD []) db3 with
        | .error e => .error e
        | .ok db4 => .ok (cid, db4)

/-- Lines 385-394: when the `roles` key is present, a non-empty list is
checked and set, an empty (or null) one clears the association; an absent
key leaves it untouched. -/
def applyRolesUpdate (cid : Nat) (ids? : Option (List Nat)) (db : Db) : Except Err Db :=
  match ids? with
  | none => .ok db
  | some ids =>
    if ids.isEmpty then .ok (setChecklistRoles db cid [])
    else
      match checkRoles db ids with
      | .error e => .error e
      | .ok rs => .ok (setChecklistRoles db cid rs)

/-- Lines 396-421: a present `sections` key deletes all existing sections of
the checklist (cascade-deleting their items) and recreates from the payload;
an absent key leaves them untouched. -/
def replaceSections (user cid : Nat) (secs? : Option (List SectionPayload)) (db : Db) :
    Except Err Db :=
  match secs? with
  | none => .ok db
  | some secs =>
    let deadIds := (db.sections.filter (fun s => s.checklist == cid)).map (fun s => s.id)
    let db' := { db with
      sections := db.sections.filter (fun s => !(s.checklist == cid)),
      items := db.items.filter (fun i => !(deadIds.contains i.section_id)) }
    createSections user cid secs db'

/-- `ChecklistService.update_full_checklist` (services.py lines 343-428):
fetch, overwrite present scalar fields, resolve `checklist_type`, save the
parent (unique check against other rows), then roles, then sections.  The
trailing `except` clauses of lines 424-428 re-raise. -/
def update_full_checklist (user cid : Nat) (p : ChecklistPayload) (db : Db) :
    Except Err (Nat × Db) :=
  match db.checklists.find? (fun c => c.id == cid) with
  | none => .error (.validationError "checklist" "Checklist does not exist.")
  | some c0 =>
    match resolveCtUpdate user p.checklist_type false c0.checklist_type db with
    | .error e => .error e
    | .ok (db1, ctId) =>
      let c2 : ChecklistRow := { c0 with
        name := p.name.getD c0.name
        description := p.description.getD c0.description
        phase := p.phase.getD c0.phase
        notes := p.notes.getD c0.notes
        checklist_type := ctId
        updated_by := user }
      if ctId.isSome && db1.checklists.any
          (fun c => c.id != cid && c.name == c2.name && c.checklist_type == ctId) then
        .error .integrityError
      else
        let db2 := { db1 with
          checklists := db1.checklists.map (fun c => if c.id == cid then c2 else c) }
        match applyRolesUpdate cid p.roles db2 with
        | .error e => .error e
        | .ok db3 =>
          match replaceSections user cid p.sections db3 with
          | .error e => .error e
          | .ok db4 => .ok (cid, db4)

/-- `@transaction.atomic` around the create path: the state visible after
the call is the new state on success and the entry state on any error. -/
def runCreateFull (user : Nat) (p : ChecklistPayload) (db : Db) : Db × Option Nat :=
  match create_full_checklist user p db with
  | .ok (cid, db') => (db', some cid)
  | .error _ => (db, none)

/-- `@transaction.atomic` around the update path. -/
def runUpdateFull (user cid : Nat) (p : ChecklistPayload) (db : Db) : Db × Option Nat :=
  match update_full_checklist user cid p db with
  | .ok (_, db') => (db', some cid)
  | .error _ => (db, none)

/-- Database sanity: primary keys already allocated are below the counter,
foreign keys reference allocated ids, and role ids are unique
(the `Role.id` column is a primary key). -/
structure DbWF (db : Db) : Prop where
  roles_nodup : (db.roles.map RoleRow.id).Nodup
  checklists_lt : ∀ c ∈ db.checklists, c.id < db.nextId
  sections_lt : ∀ s ∈ db.sections, s.id < db.nextId
  sections_fk_lt : ∀ s ∈ db.sections, s.checklist < db.nextId
  items_fk_lt : ∀ i ∈ db.items, i.section_id < db.nextId

/-- The empty database, counter at 1 (Django auto-increment starts at 1). -/
def dbEmpty : Db := ⟨[], [], [], [], [], [], 1⟩

/-- `ChecklistProgress.objects.filter(checklist=checklist)` as read by
`get_checklist_progress_stats` (services.py lines 866-898): the progress
records of the checklist, across all users. -/
def progressRecordsOf (db : Db) (cid : Nat) : List ProgressRow :=
  db.progress.filter (fun r => r.checklist == cid)

/-- The `completion_percentage` entry of the stats dict (lines 890-893):
completed records over all progress records × 100, guarded to 0 when there
are no progress records. -/
def completion_percentage (db : Db) (cid : Nat) : Rat :=
  let recs := progressRecordsOf db cid
  if 0 < recs.length then
    (((recs.filter (fun r => r.status == ProgressStatus.completed)).length : Rat)
      / (recs.length : Rat)) * 100
  else 0

/-- The `ListItem` rows under a checklist, via its sections. -/
def itemsUnderChecklist (db : Db) (cid : Nat) : List ListItemRow :=
  db.items.filter (fun i =>
    (db.sections.filter (fun s => s.checklist == cid)).any (fun s => s.id == i.section_id))

/-- The percentage as claim C3 words it (spec section 4.2): distinct items
under the checklist having a completed progress record for the given user,
over all items under the checklist, 0 for a checklist with no items.
Written from the spec's words only, to compare with the code's
`completion_percentage`. -/
def specCompletionPercentage (db : Db) (cid uid : Nat) : Rat :=
  let its := itemsUnderChecklist db cid
  if 0 < its.length then
    (((its.filter (fun i => db.progress.any (fun r =>
        r.item == some i.id && r.user == uid &&
        r.status == ProgressStatus.completed))).length : Rat)
      / (its.length : Rat)) * 100
  else 0

end Checklist

namespace LMS

theorem storedMax_update (now : Nat) (t duration : Rat) (lp : LessonProgress) :
    storedMax (video_update_progress now t duration lp) = max (storedMax lp) t := by
  unfold video_update_progress storedMax mark_completed
  dsimp only
  split
  · split <;> simp
  · simp

theorem storedMax_runVideoUpdates (duration : Rat) (upds : List (Nat × Rat))
    (lp : LessonProgress) :
    storedMax (runVideoUpdates duration upds lp) =
      (upds.map Prod.snd).foldl max (storedMax lp) := by
  induction upds generalizing lp with
  | nil => rfl
  | cons u rest ih =>
    cases u with
    | mk now t => simp [runVideoUpdates, ih, storedMax_update]

theorem le_foldl_max (l : List Rat) (a : Rat) : a ≤ l.foldl max a := by
  induction l generalizing a with
  | nil => exact le_refl a
  | cons x xs ih => exact le_trans (le_max_left a x) (ih (max a x))

theorem foldl_max_mem (l : List Rat) (a : Rat) :
    l.foldl max a = a ∨ l.foldl max a ∈ l := by
  induction l generalizing a with
  | nil => exact Or.inl rfl
  | cons x xs ih =>
    rcases ih (max a x) with h | h
    · rcases max_choice a x with hm | hm
      · exact Or.inl (by rw [List.foldl_cons, h, hm])
      · exact Or.inr (by rw [List.foldl_cons, h, hm]; exact List.mem_cons_self x xs)
    · exact Or.inr (List.mem_cons_of_mem x h)

theorem mem_le_foldl_max (l : List Rat) (a : Rat) (x : Rat) (hx : x ∈ l) :
    x ≤ l.foldl max a := by
  induction l generalizing a with
  | nil => cases hx
  | cons y ys ih =>
    rw [List.foldl_cons]
    rcases List.mem_cons.mp hx with rfl | h
    · exact le_trans (le_max_right a x) (le_foldl_max ys (max a x))
    · exact ih (max a y) h

theorem foldl_max_zero_mem (l : List Rat) (hne : l ≠ []) (h : ∀ x ∈ l, 0 ≤ x) :
    l.foldl max 0 ∈ l := by
  rcases foldl_max_mem l 0 with h0 | hm
  · cases l with
    | nil => exact absurd rfl hne
    | cons x xs =>
      have hx : x ≤ (x :: xs).foldl max 0 :=
        mem_le_foldl_max _ 0 x (List.mem_cons_self x xs)
      have hx0 : x = 0 := le_antisymm (h0 ▸ hx) (h x (List.mem_cons_self x xs))
      rw [h0, ← hx0]
      exact List.mem_cons_self x xs
  · exact hm

/-- Claim C4: across a sequence of video progress updates on one
lesson-progress record, the stored `max_time_reached` equals the maximum of
all `current_time` values submitted so far (it is a member of the submitted
values and an upper bound of them, for any nonempty sequence — applying the
statement to each prefix gives the value after each update); every single
update is monotonically non-decreasing for the stored value; and for the
sequence [10, 40, 25, 80] at duration 100 the final value is 80 while after
the third update it is 40, not 25. -/
theorem c4_video_max_time_monotone (duration : Rat) (upds : List (Nat × Rat))
    (lp : LessonProgress)
    (h0 : lp.session_data.max_time_reached = none)
    (hpos : ∀ u ∈ upds, 0 ≤ u.2) (hne : upds ≠ []) :
    (storedMax (runVideoUpdates duration upds lp) ∈ upds.map Prod.snd ∧
      ∀ u ∈ upds, u.2 ≤ storedMax (runVideoUpdates duration upds lp)) ∧
    (∀ (now : Nat) (t : Rat) (lq : LessonProgress),
      storedMax lq ≤ storedMax (video_update_progress now t duration lq)) ∧
    storedMax (runVideoUpdates 100 [(1, 10), (2, 40), (3, 25), (4, 80)] initialProgress) = 80 ∧
    storedMax (runVideoUpdates 100 [(1, 10), (2, 40), (3, 25)] initialProgress) = 40 := by
  have hbase : storedMax lp = 0 := by simp [storedMax, h0]
  have hrun : storedMax (runVideoUpdates duration upds lp) =
      (upds.map Prod.snd).foldl max 0 := by
    rw [storedMax_runVideoUpdates, hbase]
  refine ⟨⟨?_, ?_⟩, ?_, ?_, ?_⟩
  · rw [hrun]
    refine foldl_max_zero_mem _ (by simpa using hne) ?_
    intro x hx
    rcases List.mem_map.mp hx with ⟨u, hu, rfl⟩
    exact hpos u hu
  · intro u hu
    rw [hrun]
    exact mem_le_foldl_max _ 0 u.2 (List.mem_map.mpr ⟨u, hu, rfl⟩)
  · intro now t lq
    rw [storedMax_update]
    exact le_max_left _ _
  · norm_num [runVideoUpdates, video_update_progress, mark_completed,
      initialProgress, storedMax]
  · norm_num [runVideoUpdates, video_update_progress, mark_completed,
      initialProgress, storedMax]

/-- Witness for C4 at the concrete input sequence [10, 40, 25, 80], duration
100, starting from a fresh record. -/
theorem c4_video_max_time_monotone_witness :
    storedMax (runVideoUpdates 100 [(1, 10), (2, 40), (3, 25), (4, 80)] initialProgress) = 80 :=
  (c4_video_max_time_monotone 100 [(1, 10), (2, 40), (3, 25), (4, 80)] initialProgress
    (by simp [initialProgress]) (by norm_num) (by simp)).2.2.1

/-- Claim C5: reaching `progress_value ≥ 70` through a video progress update
marks the record completed exactly once (`is_completed` set, `completed_at`
stamped, one completion ActivityLog written); once completed, no later update
— including a rewind-derived lower value — ever resets `is_completed`,
changes `completed_at`, or logs again; and `mark_completed` on an
already-completed record is a no-op, not an error. -/
theorem c5_completion_one_way :
    (∀ (now : Nat) (t duration : Rat) (lp : LessonProgress), lp.is_completed = true →
      (video_update_progress now t duration lp).is_completed = true ∧
      (video_update_progress now t duration lp).completed_at = lp.completed_at ∧
      (video_update_progress now t duration lp).completionLogs = lp.completionLogs) ∧
    (∀ (duration : Rat) (upds : List (Nat × Rat)) (lp : LessonProgress),
      lp.is_completed = true →
      (runVideoUpdates duration upds lp).is_completed = true ∧
      (runVideoUpdates duration upds lp).completed_at = lp.completed_at ∧
      (runVideoUpdates duration upds lp).completionLogs = lp.completionLogs) ∧
    (∀ (now : Nat) (lp : LessonProgress), lp.is_completed = true →
      mark_completed now lp = lp) ∧
    (∀ (now : Nat) (t duration : Rat) (lp : LessonProgress), lp.is_completed = false →
      (video_update_progress now t duration lp).progress_value ≥ 70 →
      (video_update_progress now t duration lp).is_completed = true ∧
      (video_update_progress now t duration lp).completed_at = some now ∧
      (video_update_progress now t duration lp).completionLogs = lp.completionLogs + 1) := by
  have hstep : ∀ (now : Nat) (t duration : Rat) (lp : LessonProgress),
      lp.is_completed = true →
      (video_update_progress now t duration lp).is_completed = true ∧
      (video_update_progress now t duration lp).completed_at = lp.completed_at ∧
      (video_update_progress now t duration lp).completionLogs = lp.completionLogs := by
    intro now t duration lp hc
    unfold video_update_progress mark_completed
    dsimp only
    split
    · simp [hc]
    · simp [hc]
  refine ⟨hstep, ?_, ?_, ?_⟩
  · intro duration upds
    induction upds with
    | nil => intro lp hc; exact ⟨hc, rfl, rfl⟩
    | cons u rest ih =>
      intro lp hc
      cases u with
      | mk now t =>
        have h1 := hstep now t duration lp hc
        have h2 := ih (video_update_progress now t duration lp) h1.1
        exact ⟨h2.1, h2.2.1.trans h1.2.1, h2.2.2.trans h1.2.2⟩
  · intro now lp hc
    simp [mark_completed, hc]
  · intro now t duration lp hc hp
    revert hp
    unfold video_update_progress mark_completed
    dsimp only
    split
    · simp [hc]
    · intro hp
      exact absurd hp (by assumption)

/-- Witness for C5: a record completed at time 3 stays completed, with the
same timestamp and a single log entry, after a rewind-style update to a
position worth 65%; and a fresh record crossing 70% in one update is stamped
exactly once. -/
theorem c5_completion_one_way_witness :
    (let done : LessonProgress :=
      { is_completed := true, completed_at := some 3, progress_value := 80
        session_data := ⟨some 100, some 80, some 80, some 3⟩, completionLogs := 1 }
     (video_update_progress 9 65 100 done).is_completed = true ∧
     (video_update_progress 9 65 100 done).completed_at = some 3 ∧
     (video_update_progress 9 65 100 done).completionLogs = 1) ∧
    ((video_update_progress 5 75 100 initialProgress).is_completed = true ∧
     (video_update_progress 5 75 100 initialProgress).completed_at = some 5 ∧
     (video_update_progress 5 75 100 initialProgress).completionLogs = 1) := by
  constructor
  · exact c5_completion_one_way.1 9 65 100 _ rfl
  · exact c5_completion_one_way.2.2.2 5 75 100 initialProgress rfl
      (by norm_num [video_update_progress, mark_completed, initialProgress])

end LMS

namespace LearningMS

/-- Claim C6: a saved MCQ answer is correct iff the submitted text equals the
question's stored correct answer after strip-and-lowercase normalization on
both sides, judged against the correct answer at save time (later edits to
the question leave saved answers untouched); for correct answer "B",
submitting "B" or "b " grades true and "A" grades false. -/
theorem c6_mcq_grading (q : Question) (a : AnswerRow) (hq : q.question_type = "mcq") :
    ((answerSaveGrade q a).is_correct = true ↔
      pyNormalize a.answer_text = pyNormalize q.correct_answer) ∧
    (∀ (db : QuizDb) (qid : Nat) (s : String),
      (editCorrectAnswer db qid s).answers = db.answers) ∧
    (answerSaveGrade ⟨1, "mcq", "B"⟩ ⟨1, 1, "B", false⟩).is_correct = true ∧
    (answerSaveGrade ⟨1, "mcq", "B"⟩ ⟨1, 1, "b ", false⟩).is_correct = true ∧
    (answerSaveGrade ⟨1, "mcq", "B"⟩ ⟨1, 1, "A", false⟩).is_correct = false := by
  refine ⟨?_, fun db qid s => rfl, by decide, by decide, by decide⟩
  simp [answerSaveGrade, hq]

/-- Witness for C6 at a concrete MCQ question with correct answer "B" and a
whitespace-and-case variant submission. -/
theorem c6_mcq_grading_witness :
    (answerSaveGrade ⟨7, "mcq", "B"⟩ ⟨3, 7, " b", false⟩).is_correct = true ∧
    pyNormalize " b" = pyNormalize "B" :=
  ⟨((c6_mcq_grading ⟨7, "mcq", "B"⟩ ⟨3, 7, " b", false⟩ rfl).1).mpr (by decide), by decide⟩

/-- Counterexample to claim C9 as stated: a staff user who is not the
review's creator is rejected by both `update_review` and `delete_review`,
although the claim says a staff/admin user succeeds. -/
theorem c9_staff_rejected_counterexample :
    (⟨2, true⟩ : UserAccount).is_staff = true ∧
    (⟨1, 1, 5, "great"⟩ : Review).crew_member_user ≠ (⟨2, true⟩ : UserAccount).id ∧
    update_review ⟨1, 1, 5, "great"⟩ ⟨2, true⟩ ⟨some 4, none⟩ =
      .error (.validationError "You can only update your own review.") ∧
    delete_review ⟨1, 1, 5, "great"⟩ ⟨2, true⟩ =
      .error (.validationError "You can only delete your own review.") := by
  refine ⟨rfl, by decide, rfl, rfl⟩

/-- Claim C9 as amended: updating or deleting a review succeeds exactly when
the acting user is the review's original creator; every other user —
including staff/admin — receives a ValidationError and no change is applied
(never a silent no-op). -/
theorem c9_review_owner_only (review : Review) (user : UserAccount) (d : ReviewData) :
    (user.id = review.crew_member_user →
      update_review review user d = .ok (applyReviewData d review) ∧
      delete_review review user = .ok ()) ∧
    (user.id ≠ review.crew_member_user →
      update_review review user d =
        .error (.validationError "You can only update your own review.") ∧
      delete_review review user =
        .error (.validationError "You can only delete your own review.")) := by
  constructor
  · intro h
    constructor <;> simp [update_review, delete_review, h.symm]
  · intro h
    constructor <;> simp [update_review, delete_review, Ne.symm h]

/-- Witness for C9 (amended): the creator's own update succeeds; a staff
non-creator's update fails. -/
theorem c9_review_owner_only_witness :
    update_review ⟨1, 4, 5, "ok"⟩ ⟨4, false⟩ ⟨some 3, none⟩ =
      .ok (applyReviewData ⟨some 3, none⟩ ⟨1, 4, 5, "ok"⟩) ∧
    update_review ⟨1, 4, 5, "ok"⟩ ⟨9, true⟩ ⟨some 3, none⟩ =
      .error (.validationError "You can only update your own review.") :=
  ⟨((c9_review_owner_only ⟨1, 4, 5, "ok"⟩ ⟨4, false⟩ ⟨some 3, none⟩).1 rfl).1,
   ((c9_review_owner_only ⟨1, 4, 5, "ok"⟩ ⟨9, true⟩ ⟨some 3, none⟩).2 (by decide)).1⟩

end LearningMS

namespace Checklist

theorem bulkCreateItems_error_eq (user sid : Nat) :
    ∀ (items : List ItemPayload) (db : Db) (e : Err),
    bulkCreateItems user sid items db = .error e → e = .integrityError := by
  intro items
  induction items with
  | nil => intro db e h; simp [bulkCreateItems] at h
  | cons it rest ih =>
    intro db e h
    unfold bulkCreateItems at h
    cases hn : it.name with
    | none => rw [hn] at h; exact (Except.error.inj h).symm
    | some nm => rw [hn] at h; exact ih _ e h

theorem bulkCreateItems_of_bad (user sid : Nat) :
    ∀ (items : List ItemPayload) (db : Db),
    (∃ it ∈ items, it.name = none) →
    bulkCreateItems user sid items db = .error .integrityError := by
  intro items
  induction items with
  | nil => intro db h; rcases h with ⟨it, hmem, _⟩; cases hmem
  | cons it rest ih =>
    intro db h
    unfold bulkCreateItems
    cases hn : it.name with
    | none => rfl
    | some nm =>
      rcases h with ⟨it', hmem, hname⟩
      rcases List.mem_cons.mp hmem with rfl | hmem'
      · rw [hn] at hname; cases hname
      · exact ih _ ⟨it', hmem', hname⟩

theorem createSections_of_bad (user cid : Nat) :
    ∀ (secs : List SectionPayload) (db : Db),
    (∃ sec ∈ secs, ∃ it ∈ sec.items.getD [], it.name = none) →
    createSections user cid secs db = .error .integrityError := by
  intro secs
  induction secs with
  | nil => intro db h; rcases h with ⟨sec, hmem, _⟩; cases hmem
  | cons sec rest ih =>
    intro db h
    rcases h with ⟨sec', hmem, hbad⟩
    rcases List.mem_cons.mp hmem with rfl | hmem'
    · cases hn : sec'.name with
      | none => unfold createSections; rw [hn]
      | some nm =>
        unfold createSections
        rw [hn]
        dsimp only
        rw [bulkCreateItems_of_bad user db.nextId _ _ hbad]
    · cases hn : sec.name with
      | none => unfold createSections; rw [hn]
      | some nm =>
        unfold createSections
        rw [hn]
        dsimp only
        cases hb : bulkCreateItems user db.nextId (sec.items.getD [])
            { db with
              sections := db.sections ++
                [⟨db.nextId, cid, nm, sec.description.getD "", sec.order.getD 0, user⟩],
              nextId := db.nextId + 1 } with
        | error e =>
          have he := bulkCreateItems_error_eq user db.nextId _ _ e hb
          subst he
          rfl
        | ok db'' => exact ih db'' ⟨sec', hmem', hbad⟩

/-- Claim C1: the composite create/update is all-or-nothing.  A payload with
an invalid nested item (here: a grandchild whose NOT NULL `name` is missing,
the claim's example of a child failing validation) can never return success
from either operation, and — the `@transaction.atomic` guarantee, for any
payload whatsoever — any error leaves the visible storage exactly the entry
state: no checklist row created by a failed create exists, and a failed
update leaves the checklist, its sections and its items unchanged. -/
theorem c1_composite_write_atomic (user cid : Nat) (p : ChecklistPayload) (db : Db)
    (hbad : ∃ sec ∈ p.sections.getD [], ∃ it ∈ sec.items.getD [], it.name = none) :
    (∀ r, create_full_checklist user p db ≠ .ok r) ∧
    runCreateFull user p db = (db, none) ∧
    (∀ r, update_full_checklist user cid p db ≠ .ok r) ∧
    runUpdateFull user cid p db = (db, none) ∧
    (∀ (q : ChecklistPayload) (e : Err), create_full_checklist user q db = .error e →
      runCreateFull user q db = (db, none)) ∧
    (∀ (q : ChecklistPayload) (e : Err), update_full_checklist user cid q db = .error e →
      runUpdateFull user cid q db = (db, none)) := by
  have hcreate : ∀ r, create_full_checklist user p db ≠ .ok r := by
    intro r h
    unfold create_full_checklist at h
    split at h
    · exact Except.noConfusion h
    · split at h
      · exact Except.noConfusion h
      · split at h
        · exact Except.noConfusion h
        · split at h
          · exact Except.noConfusion h
          · rename_i heq
            rw [createSections_of_bad user _ _ _ hbad] at heq
            exact Except.noConfusion heq
  have hupdate : ∀ r, update_full_checklist user cid p db ≠ .ok r := by
    intro r h
    unfold update_full_checklist at h
    split at h
    · exact Except.noConfusion h
    · split at h
      · exact Except.noConfusion h
      · dsimp only at h
        split at h
        · exact Except.noConfusion h
        · split at h
          · exact Except.noConfusion h
          · split at h
            · exact Except.noConfusion h
            · rename_i heq
              rcases hbad with ⟨sec, hmem, hit⟩
              cases hs : p.sections with
              | none => rw [hs] at hmem; cases hmem
              | some secs =>
                rw [hs] at heq hmem
                unfold replaceSections at heq
                dsimp only at heq
                rw [createSections_of_bad user cid secs _
                  ⟨sec, by simpa using hmem, hit⟩] at heq
                exact Except.noConfusion heq
  refine ⟨hcreate, ?_, hupdate, ?_, ?_, ?_⟩
  · unfold runCreateFull
    cases h : create_full_checklist user p db with
    | error e => rfl
    | ok r => exact absurd h (hcreate r)
  · unfold runUpdateFull
    cases h : update_full_checklist user cid p db with
    | error e => rfl
    | ok r => exact absurd h (hupdate r)
  · intro q e h
    simp [runCreateFull, h]
  · intro q e h
    simp [runUpdateFull, h]

/-- Witness for C1: a concrete payload whose single section carries one item
with no name fails both operations on the empty database and leaves it
untouched. -/
theorem c1_composite_write_atomic_witness :
    runCreateFull 1
      { name := some "Safety", description := none, phase := some "pre-stream"
        notes := none, checklist_type := none, roles := none
        sections := some [⟨some "Audio", none, some 1, some [⟨none, none⟩]⟩] }
      dbEmpty = (dbEmpty, none) :=
  (c1_composite_write_atomic 1 0
      { name := some "Safety", description := none, phase := some "pre-stream"
        notes := none, checklist_type := none, roles := none
        sections := some [⟨some "Audio", none, some 1, some [⟨none, none⟩]⟩] }
      dbEmpty
      ⟨⟨some "Audio", none, some 1, some [⟨none, none⟩]⟩, by simp,
        ⟨none, none⟩, by simp, rfl⟩).2.1

theorem bulkCreateItems_ok_spec (user sid : Nat) :
    ∀ (items : List ItemPayload) (db db' : Db),
    bulkCreateItems user sid items db = .ok db' →
    db'.roles = db.roles ∧ db'.checklistTypes = db.checklistTypes ∧
    db'.checklists = db.checklists ∧ db'.sections = db.sections ∧
    db'.progress = db.progress ∧ db.nextId ≤ db'.nextId ∧
    ∃ ni, db'.items = db.items ++ ni ∧ ∀ i ∈ ni, i.section_id = sid := by
  intro items
  induction items with
  | nil =>
    intro db db' h
    cases h
    exact ⟨rfl, rfl, rfl, rfl, rfl, le_refl _, [], by simp, by simp⟩
  | cons it rest ih =>
    intro db db' h
    unfold bulkCreateItems at h
    cases hn : it.name with
    | none => rw [hn] at h; exact Except.noConfusion h
    | some nm =>
      rw [hn] at h
      obtain ⟨h1, h2, h3, h4, h5, h6, ni, h7, h8⟩ := ih _ _ h
      refine ⟨h1, h2, h3, h4, h5, le_trans (Nat.le_succ _) h6,
        ⟨db.nextId, sid, nm, it.description.getD "", user⟩ :: ni, ?_, ?_⟩
      · rw [h7]; simp
      · intro i hi
        rcases List.mem_cons.mp hi with rfl | hi'
        · rfl
        · exact h8 i hi'

theorem forall2_mem_right {α β : Type} {R : α → β → Prop} :
    ∀ {l1 : List α} {l2 : List β}, List.Forall₂ R l1 l2 →
    ∀ b ∈ l2, ∃ a ∈ l1, R a b := by
  intro l1 l2 h
  induction h with
  | nil => intro b hb; cases hb
  | cons hr _ ih =>
    intro b hb
    rcases List.mem_cons.mp hb with rfl | hb'
    · exact ⟨_, List.mem_cons_self _ _, hr⟩
    · rcases ih b hb' with ⟨a, ha, har⟩
      exact ⟨a, List.mem_cons_of_mem _ ha, har⟩

theorem createSections_ok_spec (user cid : Nat) :
    ∀ (secs : List SectionPayload) (db db' : Db),
    createSections user cid secs db = .ok db' →
    db'.roles = db.roles ∧ db'.checklistTypes = db.checklistTypes ∧
    db'.checklists = db.checklists ∧ db'.progress = db.progress ∧
    db.nextId ≤ db'.nextId ∧
    ∃ ns ni,
      db'.sections = db.sections ++ ns ∧
      db'.items = db.items ++ ni ∧
      List.Forall₂ (fun (sec : SectionPayload) (s : SectionRow) =>
        s.checklist = cid ∧ db.nextId ≤ s.id ∧ s.order = sec.order.getD 0) secs ns ∧
      (∀ i ∈ ni, db.nextId ≤ i.section_id) := by
  intro secs
  induction secs with
  | nil =>
    intro db db' h
    cases h
    exact ⟨rfl, rfl, rfl, rfl, le_refl _, [], [], by simp, by simp, List.Forall₂.nil, by simp⟩
  | cons sec rest ih =>
    intro db db' h
    unfold createSections at h
    cases hn : sec.name with
    | none => rw [hn] at h; exact Except.noConfusion h
    | some nm =>
      rw [hn] at h
      dsimp only at h
      cases hb : bulkCreateItems user db.nextId (sec.items.getD [])
          { db with
            sections := db.sections ++
              [⟨db.nextId, cid, nm, sec.description.getD "", sec.order.getD 0, user⟩],
            nextId := db.nextId + 1 } with
      | error e => rw [hb] at h; exact Except.noConfusion h
      | ok db2 =>
        rw [hb] at h
        obtain ⟨b1, b2, b3, b4, b5, b6, ni1, b7, b8⟩ :=
          bulkCreateItems_ok_spec user db.nextId _ _ _ hb
        obtain ⟨r1, r2, r3, r4, r5, ns, ni2, r6, r7, r8, r9⟩ := ih db2 db' h
        have hb6 : db.nextId + 1 ≤ db2.nextId := b6
        refine ⟨r1.trans b1, r2.trans b2, r3.trans b3, r4.trans b5,
          le_trans (Nat.le_succ _) (le_trans hb6 r5),
          ⟨db.nextId, cid, nm, sec.description.getD "", sec.order.getD 0, user⟩ :: ns,
          ni1 ++ ni2, ?_, ?_, ?_, ?_⟩
        · rw [r6, b4]; simp
        · rw [r7, b7]; simp
        · refine List.Forall₂.cons ⟨rfl, le_refl _, rfl⟩ ?_
          refine r8.imp ?_
          intro a b hab
          exact ⟨hab.1, le_trans (le_trans (Nat.le_succ _) hb6) hab.2.1, hab.2.2⟩
        · intro i hi
          rcases List.mem_append.mp hi with hi1 | hi2
          · exact le_of_eq (b8 i hi1).symm
          · exact le_trans (le_trans (Nat.le_succ _) hb6) (r9 i hi2)

theorem resolveCtCreate_ok_spec (user : Nat) (ctp? : Option CTPayload) (race : Bool)
    (db db' : Db) (x : Option Nat)
    (h : resolveCtCreate user ctp? race db = .ok (db', x)) :
    db'.roles = db.roles ∧ db'.checklists = db.checklists ∧
    db'.sections = db.sections ∧ db'.items = db.items ∧
    db'.progress = db.progress ∧ db.nextId ≤ db'.nextId := by
  unfold resolveCtCreate at h
  cases hc : ctp? with
  | none =>
    rw [hc] at h
    simp only [Except.ok.injEq, Prod.mk.injEq] at h
    obtain ⟨rfl, rfl⟩ := h
    exact ⟨rfl, rfl, rfl, rfl, rfl, Nat.le_refl _⟩
  | some ctp =>
    rw [hc] at h
    dsimp only at h
    by_cases h1 : pyTruthyNat ctp.id = true
    · rw [if_pos h1] at h
      cases hf : db.checklistTypes.find? (fun r => r.id == ctp.id.getD 0) with
      | some row =>
        rw [hf] at h
        simp only [Except.ok.injEq, Prod.mk.injEq] at h
        obtain ⟨rfl, rfl⟩ := h
        exact ⟨rfl, rfl, rfl, rfl, rfl, Nat.le_refl _⟩
      | none => rw [hf] at h; exact Except.noConfusion h
    · rw [if_neg h1] at h
      by_cases h2 : pyTruthyStr ctp.name = true
      · rw [if_pos h2] at h
        cases hf : db.checklistTypes.find?
            (fun r => r.name == stripStr (ctp.name.getD "")) with
        | some row =>
          rw [hf] at h
          simp only [Except.ok.injEq, Prod.mk.injEq] at h
          obtain ⟨rfl, rfl⟩ := h
          exact ⟨rfl, rfl, rfl, rfl, rfl, Nat.le_refl _⟩
        | none =>
          rw [hf] at h
          cases race with
          | true =>
            rw [if_pos rfl] at h
            simp only [Except.ok.injEq, Prod.mk.injEq] at h
            obtain ⟨rfl, rfl⟩ := h
            exact ⟨rfl, rfl, rfl, rfl, rfl, Nat.le_succ _⟩
          | false =>
            rw [if_neg (by simp)] at h
            simp only [Except.ok.injEq, Prod.mk.injEq] at h
            obtain ⟨rfl, rfl⟩ := h
            exact ⟨rfl, rfl, rfl, rfl, rfl, Nat.le_succ _⟩
      · rw [if_neg h2] at h
        simp only [Except.ok.injEq, Prod.mk.injEq] at h
        obtain ⟨rfl, rfl⟩ := h
        exact ⟨rfl, rfl, rfl, rfl, rfl, Nat.le_refl _⟩

theorem resolveCtUpdate_ok_spec (user : Nat) (ctp? : Option CTPayload) (race : Bool)
    (current : Option Nat) (db db' : Db) (x : Option Nat)
    (h : resolveCtUpdate user ctp? race current db = .ok (db', x)) :
    db'.roles = db.roles ∧ db'.checklists = db.checklists ∧
    db'.sections = db.sections ∧ db'.items = db.items ∧
    db'.progress = db.progress ∧ db.nextId ≤ db'.nextId := by
  unfold resolveCtUpdate at h
  cases hc : ctp? with
  | none =>
    rw [hc] at h
    simp only [Except.ok.injEq, Prod.mk.injEq] at h
    obtain ⟨rfl, rfl⟩ := h
    exact ⟨rfl, rfl, rfl, rfl, rfl, Nat.le_refl _⟩
  | some ctp =>
    rw [hc] at h
    dsimp only at h
    by_cases h1 : pyTruthyNat ctp.id = true
    · rw [if_pos h1] at h
      cases hf : db.checklistTypes.find? (fun r => r.id == ctp.id.getD 0) with
      | some row =>
        rw [hf] at h
        simp only [Except.ok.injEq, Prod.mk.injEq] at h
        obtain ⟨rfl, rfl⟩ := h
        exact ⟨rfl, rfl, rfl, rfl, rfl, Nat.le_refl _⟩
      | none => rw [hf] at h; exact Except.noConfusion h
    · rw [if_neg h1] at h
      by_cases h2 : pyTruthyStr ctp.name = true
      · rw [if_pos h2] at h
        cases hf : db.checklistTypes.find?
            (fun r => r.name == stripStr (ctp.name.getD "")) with
        | some row =>
          rw [hf] at h
          simp only [Except.ok.injEq, Prod.mk.injEq] at h
          obtain ⟨rfl, rfl⟩ := h
          exact ⟨rfl, rfl, rfl, rfl, rfl, Nat.le_refl _⟩
        | none =>
          rw [hf] at h
          cases race with
          | true =>
            rw [if_pos rfl] at h
            simp only [Except.ok.injEq, Prod.mk.injEq] at h
            obtain ⟨rfl, rfl⟩ := h
            exact ⟨rfl, rfl, rfl, rfl, rfl, Nat.le_succ _⟩
          | false =>
            rw [if_neg (by simp)] at h
            simp only [Except.ok.injEq, Prod.mk.injEq] at h
            obtain ⟨rfl, rfl⟩ := h
            exact ⟨rfl, rfl, rfl, rfl, rfl, Nat.le_succ _⟩
      · rw [if_neg h2] at h
        simp only [Except.ok.injEq, Prod.mk.injEq] at h
        obtain ⟨rfl, rfl⟩ := h
        exact ⟨rfl, rfl, rfl, rfl, rfl, Nat.le_refl _⟩

theorem applyRolesUpdate_ok_spec (cid : Nat) (ids? : Option (List Nat)) (db db' : Db)
    (h : applyRolesUpdate cid ids? db = .ok db') :
    db'.roles = db.roles ∧ db'.checklistTypes = db.checklistTypes ∧
    db'.sections = db.sections ∧ db'.items = db.items ∧
    db'.progress = db.progress ∧ db'.nextId = db.nextId := by
  unfold applyRolesUpdate setChecklistRoles at h
  repeat' split at h
  all_goals first
    | exact Except.noConfusion h
    | (simp only [Except.ok.injEq] at h
       subst h
       exact ⟨rfl, rfl, rfl, rfl, rfl, rfl⟩)

theorem applyRolesCreate_ok_spec (cid : Nat) (ids : List Nat) (db db' : Db)
    (h : applyRolesCreate cid ids db = .ok db') :
    db'.roles = db.roles ∧ db'.checklistTypes = db.checklistTypes ∧
    db'.sections = db.sections ∧ db'.items = db.items ∧
    db'.progress = db.progress ∧ db'.nextId = db.nextId := by
  unfold applyRolesCreate setChecklistRoles at h
  repeat' split at h
  all_goals first
    | exact Except.noConfusion h
    | (simp only [Except.ok.injEq] at h
       subst h
       exact ⟨rfl, rfl, rfl, rfl, rfl, rfl⟩)

theorem createChecklistRow_ok_spec (user : Nat) (p : ChecklistPayload)
    (ctId : Option Nat) (db db' : Db) (cid : Nat)
    (h : createChecklistRow user p ctId db = .ok (db', cid)) :
    db'.roles = db.roles ∧ db'.checklistTypes = db.checklistTypes ∧
    db'.sections = db.sections ∧ db'.items = db.items ∧
    db'.progress = db.progress ∧ db'.nextId = db.nextId + 1 ∧ cid = db.nextId := by
  unfold createChecklistRow at h
  repeat' split at h
  all_goals first
    | exact Except.noConfusion h
    | (simp only [Except.ok.injEq, Prod.mk.injEq] at h
       obtain ⟨rfl, rfl⟩ := h
       exact ⟨rfl, rfl, rfl, rfl, rfl, rfl, rfl⟩)

/-- What a successful `update_full_checklist` call does to the sections and
items tables: an absent `sections` key leaves them alone, a present key
replaces the checklist's sections by fresh rows built from the payload. -/
theorem update_full_ok_main (user cid : Nat) (p : ChecklistPayload) (db : Db)
    (cid' : Nat) (db' : Db)
    (hok : update_full_checklist user cid p db = .ok (cid', db')) :
    cid' = cid ∧
    (p.sections = none → db'.sections = db.sections ∧ db'.items = db.items) ∧
    (∀ secs, p.sections = some secs →
      ∃ ns ni,
        db'.sections = db.sections.filter (fun s => !(s.checklist == cid)) ++ ns ∧
        db'.items = db.items.filter (fun i =>
          !(((db.sections.filter (fun s => s.checklist == cid)).map SectionRow.id).contains
            i.section_id)) ++ ni ∧
        List.Forall₂ (fun (sec : SectionPayload) (s : SectionRow) =>
          s.checklist = cid ∧ db.nextId ≤ s.id ∧ s.order = sec.order.getD 0) secs ns ∧
        (∀ i ∈ ni, db.nextId ≤ i.section_id)) := by
  unfold update_full_checklist at hok
  split at hok
  · exact Except.noConfusion hok
  · split at hok
    · exact Except.noConfusion hok
    · rename_i c0 hfind s db1 ctId hres
      dsimp only at hok
      split at hok
      · exact Except.noConfusion hok
      · split at hok
        · exact Except.noConfusion hok
        · split at hok
          · exact Except.noConfusion hok
          · rename_i xr db3 hroles xp db4 hrepl
            simp only [Except.ok.injEq, Prod.mk.injEq] at hok
            obtain ⟨rfl, rfl⟩ := hok
            obtain ⟨e1, e2, e3, e4, e5, e6⟩ :=
              resolveCtUpdate_ok_spec _ _ _ _ _ _ _ hres
            obtain ⟨a1, a2, a3, a4, a5, a6⟩ := applyRolesUpdate_ok_spec _ _ _ _ hroles
            have hs3 : db3.sections = db.sections := by rw [a3]; exact e3
            have hi3 : db3.items = db.items := by rw [a4]; exact e4
            have hn3 : db.nextId ≤ db3.nextId := by rw [a6]; exact e6
            refine ⟨rfl, ?_, ?_⟩
            · intro hsec
              rw [hsec] at hrepl
              unfold replaceSections at hrepl
              simp only [Except.ok.injEq] at hrepl
              subst hrepl
              exact ⟨hs3, hi3⟩
            · intro secs hsec
              rw [hsec] at hrepl
              unfold replaceSections at hrepl
              dsimp only at hrepl
              obtain ⟨c1, c2, c3, c4, c5, ns, ni, c6, c7, c8, c9⟩ :=
                createSections_ok_spec _ _ _ _ _ hrepl
              refine ⟨ns, ni, ?_, ?_, ?_, ?_⟩
              · rw [c6]; dsimp only; rw [hs3]
              · rw [c7]; dsimp only; rw [hs3, hi3]
              · refine c8.imp ?_
                intro a b hab
                exact ⟨hab.1, le_trans hn3 hab.2.1, hab.2.2⟩
              · intro i hi
                exact le_trans hn3 (c9 i hi)

/-- Claim C2: a composite update whose payload carries the `sections` key
with N section objects leaves the checklist with exactly N sections, none of
which reuses the id of any pre-existing section (old sections and their
items are deleted, not merged — surviving items never reference an old
section of this checklist); a payload without the `sections` key leaves the
sections and items tables completely unchanged. -/
theorem c2_sections_full_replace (user cid : Nat) (p : ChecklistPayload) (db : Db)
    (hwf : DbWF db) :
    (∀ (secs : List SectionPayload) (cid' : Nat) (db' : Db),
      p.sections = some secs →
      update_full_checklist user cid p db = .ok (cid', db') →
      (db'.sections.filter (fun s => s.checklist == cid)).length = secs.length ∧
      (∀ s ∈ db'.sections.filter (fun s => s.checklist == cid),
        ∀ s0 ∈ db.sections, s.id ≠ s0.id) ∧
      (∀ i ∈ db'.items, ∀ s0 ∈ db.sections, s0.checklist = cid → i.section_id ≠ s0.id)) ∧
    (∀ (cid' : Nat) (db' : Db),
      p.sections = none →
      update_full_checklist user cid p db = .ok (cid', db') →
      db'.sections = db.sections ∧ db'.items = db.items) := by
  constructor
  · intro secs cid' db' hsec hok
    obtain ⟨-, -, hrep⟩ := update_full_ok_main user cid p db cid' db' hok
    obtain ⟨ns, ni, hset, hitems, hfa, hni⟩ := hrep secs hsec
    have hfanew : ∀ s ∈ ns, s.checklist = cid ∧ db.nextId ≤ s.id := by
      intro s hs
      obtain ⟨a, ha, hab⟩ := forall2_mem_right hfa s hs
      exact ⟨hab.1, hab.2.1⟩
    have hfilter : db'.sections.filter (fun s => s.checklist == cid) = ns := by
      rw [hset, List.filter_append]
      have h1 : (db.sections.filter (fun s => !(s.checklist == cid))).filter
          (fun s => s.checklist == cid) = [] := by
        rw [List.filter_eq_nil_iff]
        intro s hs
        have h2 := (List.mem_filter.mp hs).2
        simp only [Bool.not_eq_true'] at h2
        simp [h2]
      have h2 : ns.filter (fun s => s.checklist == cid) = ns := by
        rw [List.filter_eq_self]
        intro s hs
        simp [(hfanew s hs).1]
      rw [h1, h2, List.nil_append]
    refine ⟨?_, ?_, ?_⟩
    · rw [hfilter]
      exact (List.Forall₂.length_eq hfa).symm
    · intro s hs s0 hs0
      rw [hfilter] at hs
      exact ne_of_gt (lt_of_lt_of_le (hwf.sections_lt s0 hs0) (hfanew s hs).2)
    · intro i hi s0 hs0 hcl
      rw [hitems] at hi
      rcases List.mem_append.mp hi with hi' | hi'
      · intro heq
        have hcond := (List.mem_filter.mp hi').2
        have hmem : s0.id ∈ (db.sections.filter
            (fun s => s.checklist == cid)).map SectionRow.id :=
          List.mem_map.mpr ⟨s0, List.mem_filter.mpr ⟨hs0, by simp [hcl]⟩, rfl⟩
        have hcont : ((db.sections.filter (fun s => s.checklist == cid)).map
            SectionRow.id).elem s0.id = true := List.elem_eq_true_of_mem hmem
        rw [heq] at hcond
        rw [show (((db.sections.filter (fun s => s.checklist == cid)).map
            SectionRow.id).contains s0.id) = true from hcont] at hcond
        simp at hcond
      · exact ne_of_gt (lt_of_lt_of_le (hwf.sections_lt s0 hs0) (hni i hi'))
  · intro cid' db' hsec hok
    obtain ⟨-, hnone, -⟩ := update_full_ok_main user cid p db cid' db' hok
    exact hnone hsec

/-- Witness for C2: replacing the single old section "Old" (id 2, with item
id 3) of checklist 1 by one payload section "New" yields exactly one section
with a fresh id and no surviving item of the old section. -/
theorem c2_sections_full_replace_witness :
    update_full_checklist 7 1
      ⟨none, none, none, none, none, none, some [⟨some "New", none, some 1, some []⟩]⟩
      ⟨[], [], [⟨1, "C", "", "pre-stream", "", none, [], 0, 0⟩],
        [⟨2, 1, "Old", "", 1, 0⟩], [⟨3, 2, "I", "", 0⟩], [], 4⟩ =
      .ok (1, ⟨[], [], [⟨1, "C", "", "pre-stream", "", none, [], 0, 7⟩],
        [⟨4, 1, "New", "", 1, 7⟩], [], [], 5⟩) ∧
    (((⟨[], [], [⟨1, "C", "", "pre-stream", "", none, [], 0, 7⟩],
        [⟨4, 1, "New", "", 1, 7⟩], [], [], 5⟩ : Db).sections.filter
        (fun s => s.checklist == 1)).length = 1 ∧
      (∀ s ∈ (⟨[], [], [⟨1, "C", "", "pre-stream", "", none, [], 0, 7⟩],
        [⟨4, 1, "New", "", 1, 7⟩], [], [], 5⟩ : Db).sections.filter
          (fun s => s.checklist == 1),
        ∀ s0 ∈ (⟨[], [], [⟨1, "C", "", "pre-stream", "", none, [], 0, 0⟩],
          [⟨2, 1, "Old", "", 1, 0⟩], [⟨3, 2, "I", "", 0⟩], [], 4⟩ : Db).sections,
          s.id ≠ s0.id) ∧
      (∀ i ∈ (⟨[], [], [⟨1, "C", "", "pre-stream", "", none, [], 0, 7⟩],
        [⟨4, 1, "New", "", 1, 7⟩], [], [], 5⟩ : Db).items,
        ∀ s0 ∈ (⟨[], [], [⟨1, "C", "", "pre-stream", "", none, [], 0, 0⟩],
          [⟨2, 1, "Old", "", 1, 0⟩], [⟨3, 2, "I", "", 0⟩], [], 4⟩ : Db).sections,
          s0.checklist = 1 → i.section_id ≠ s0.id)) := by
  refine ⟨by rfl, ?_⟩
  exact (c2_sections_full_replace 7 1
      ⟨none, none, none, none, none, none, some [⟨some "New", none, some 1, some []⟩]⟩
      ⟨[], [], [⟨1, "C", "", "pre-stream", "", none, [], 0, 0⟩],
        [⟨2, 1, "Old", "", 1, 0⟩], [⟨3, 2, "I", "", 0⟩], [], 4⟩
      ⟨by simp, by decide, by decide, by decide, by decide⟩).1
    [⟨some "New", none, some 1, some []⟩] 1
    ⟨[], [], [⟨1, "C", "", "pre-stream", "", none, [], 0, 7⟩],
      [⟨4, 1, "New", "", 1, 7⟩], [], [], 5⟩ rfl (by rfl)

/-- What a successful `create_full_checklist` call does to the sections and
items tables: it appends one fresh section row per payload section, linked
to the fresh checklist id, with `order = sec.get('order', 0)`. -/
theorem create_full_ok_main (user : Nat) (p : ChecklistPayload) (db : Db)
    (cid' : Nat) (db' : Db)
    (hok : create_full_checklist user p db = .ok (cid', db')) :
    db.nextId ≤ cid' ∧
    ∃ ns ni,
      db'.sections = db.sections ++ ns ∧
      db'.items = db.items ++ ni ∧
      List.Forall₂ (fun (sec : SectionPayload) (s : SectionRow) =>
        s.checklist = cid' ∧ db.nextId ≤ s.id ∧ s.order = sec.order.getD 0)
        (p.sections.getD []) ns ∧
      (∀ i ∈ ni, db.nextId ≤ i.section_id) := by
  unfold create_full_checklist at hok
  split at hok
  · exact Except.noConfusion hok
  · rename_i x1 db1 ctId hres
    split at hok
    · exact Except.noConfusion hok
    · rename_i x2 db2 cid hcrt
      split at hok
      · exact Except.noConfusion hok
      · rename_i x3 db3 hroles
        split at hok
        · exact Except.noConfusion hok
        · rename_i x4 db4 hsecs
          simp only [Except.ok.injEq, Prod.mk.injEq] at hok
          obtain ⟨rfl, rfl⟩ := hok
          obtain ⟨e1, e2, e3, e4, e5, e6⟩ := resolveCtCreate_ok_spec _ _ _ _ _ _ hres
          obtain ⟨k1, k2, k3, k4, k5, k6, k7⟩ :=
            createChecklistRow_ok_spec _ _ _ _ _ _ hcrt
          obtain ⟨a1, a2, a3, a4, a5, a6⟩ := applyRolesCreate_ok_spec _ _ _ _ hroles
          obtain ⟨c1, c2, c3, c4, c5, ns, ni, c6, c7, c8, c9⟩ :=
            createSections_ok_spec _ _ _ _ _ hsecs
          have hs3 : db3.sections = db.sections := by rw [a3, k3, e3]
          have hi3 : db3.items = db.items := by rw [a4, k4, e4]
          have hn3 : db.nextId ≤ db3.nextId := by
            rw [a6, k6]
            exact le_trans e6 (Nat.le_succ _)
          refine ⟨k7 ▸ e6, ns, ni, ?_, ?_, ?_, ?_⟩
          · rw [c6, hs3]
          · rw [c7, hi3]
          · refine c8.imp ?_
            intro a b hab
            exact ⟨hab.1, le_trans hn3 hab.2.1, hab.2.2⟩
          · intro i hi
            exact le_trans hn3 (c9 i hi)

/-- Counterexample to claim C8 as stated: a create payload with two sections
that both omit `order` gives both sections order 0 — the same constant at
two different positions, not a position-based value such as position × 10
(which would have produced [10, 20] or [0, 10]). -/
theorem c8_order_counterexample :
    (create_full_checklist 1
      ⟨some "L", none, some "pre-stream", none, none, none,
        some [⟨some "S1", none, none, none⟩, ⟨some "S2", none, none, none⟩]⟩
      dbEmpty).toOption.map (fun r => r.2.sections.map SectionRow.order) = some [0, 0] ∧
    some [0, 0] ≠ some [10, 20] ∧ some [0, 0] ≠ some [0, 10] := by
  exact ⟨by rfl, by decide, by decide⟩

/-- Claim C8 as amended: a section payload that omits the `order` field is
assigned the constant default 0 (`sec.get('order', 0)`), regardless of its
position in the input list, in both the create and the update path; items
carry no order field at all. -/
theorem c8_omitted_order_defaults_zero (user cid : Nat) (p : ChecklistPayload)
    (db : Db) (hwf : DbWF db) :
    (∀ (secs : List SectionPayload) (cid' : Nat) (db' : Db),
      p.sections = some secs → (∀ sec ∈ secs, sec.order = none) →
      create_full_checklist user p db = .ok (cid', db') →
      (db'.sections.filter (fun s => s.checklist == cid')).map SectionRow.order =
        List.replicate secs.length 0) ∧
    (∀ (secs : List SectionPayload) (cid' : Nat) (db' : Db),
      p.sections = some secs → (∀ sec ∈ secs, sec.order = none) →
      update_full_checklist user cid p db = .ok (cid', db') →
      (db'.sections.filter (fun s => s.checklist == cid)).map SectionRow.order =
        List.replicate secs.length 0) := by
  constructor
  · intro secs cid' db' hsec hord hok
    obtain ⟨hcid, ns, ni, hset, hitems, hfa, hni⟩ := create_full_ok_main user p db cid' db' hok
    rw [hsec] at hfa
    simp only [Option.getD_some] at hfa
    have hfanew : ∀ s ∈ ns, s.checklist = cid' ∧ s.order = 0 := by
      intro s hs
      obtain ⟨a, ha, hab⟩ := forall2_mem_right hfa s hs
      refine ⟨hab.1, ?_⟩
      rw [hab.2.2, hord a ha]
      rfl
    have hfilter : db'.sections.filter (fun s => s.checklist == cid') = ns := by
      rw [hset, List.filter_append]
      have h1 : (db.sections.filter (fun s => s.checklist == cid')) = [] := by
        rw [List.filter_eq_nil_iff]
        intro s hs
        have hlt : s.checklist < cid' := lt_of_lt_of_le (hwf.sections_fk_lt s hs) hcid
        simp [Nat.ne_of_lt hlt]
      have h2 : ns.filter (fun s => s.checklist == cid') = ns := by
        rw [List.filter_eq_self]
        intro s hs
        simp [(hfanew s hs).1]
      rw [h1, h2, List.nil_append]
    rw [hfilter]
    rw [List.eq_replicate_iff]
    refine ⟨by rw [List.length_map, (List.Forall₂.length_eq hfa)], ?_⟩
    intro b hb
    obtain ⟨s, hs, rfl⟩ := List.mem_map.mp hb
    exact (hfanew s hs).2
  · intro secs cid' db' hsec hord hok
    obtain ⟨-, -, hrep⟩ := update_full_ok_main user cid p db cid' db' hok
    obtain ⟨ns, ni, hset, hitems, hfa, hni⟩ := hrep secs hsec
    have hfanew : ∀ s ∈ ns, s.checklist = cid ∧ s.order = 0 := by
      intro s hs
      obtain ⟨a, ha, hab⟩ := forall2_mem_right hfa s hs
      refine ⟨hab.1, ?_⟩
      rw [hab.2.2, hord a ha]
      rfl
    have hfilter : db'.sections.filter (fun s => s.checklist == cid) = ns := by
      rw [hset, List.filter_append]
      have h1 : (db.sections.filter (fun s => !(s.checklist == cid))).filter
          (fun s => s.checklist == cid) = [] := by
        rw [List.filter_eq_nil_iff]
        intro s hs
        have h2 := (List.mem_filter.mp hs).2
        simp only [Bool.not_eq_true'] at h2
        simp [h2]
      have h2 : ns.filter (fun s => s.checklist == cid) = ns := by
        rw [List.filter_eq_self]
        intro s hs
        simp [(hfanew s hs).1]
      rw [h1, h2, List.nil_append]
    rw [hfilter]
    rw [List.eq_replicate_iff]
    refine ⟨by rw [List.length_map, (List.Forall₂.length_eq hfa)], ?_⟩
    intro b hb
    obtain ⟨s, hs, rfl⟩ := List.mem_map.mp hb
    exact (hfanew s hs).2

/-- Witness for C8 (amended): the counterexample payload, through the
theorem — both omitted-order sections of the created checklist get order 0. -/

theorem c8_omitted_order_defaults_zero_witness :
    ((⟨[], [], [⟨1, "L", "", "pre-stream", "", none, [], 1, 1⟩],
      [⟨2, 1, "S1", "", 0, 1⟩, ⟨3, 1, "S2", "", 0, 1⟩], [], [], 4⟩ : Db).sections.filter
      (fun s => s.checklist == 1)).map SectionRow.order = List.replicate 2 0 :=
  (c8_omitted_order_defaults_zero 1 0
      ⟨some "L", none, some "pre-stream", none, none, none,
        some [⟨some "S1", none, none, none⟩, ⟨some "S2", none, none, none⟩]⟩
      dbEmpty ⟨by decide, by decide, by decide, by decide, by decide⟩).1
    [⟨some "S1", none, none, none⟩, ⟨some "S2", none, none, none⟩] 1
    ⟨[], [], [⟨1, "L", "", "pre-stream", "", none, [], 1, 1⟩],
      [⟨2, 1, "S1", "", 0, 1⟩, ⟨3, 1, "S2", "", 0, 1⟩], [], [], 4⟩
    rfl (by decide) (by rfl)

theorem map_id_filter_contains (ids : List Nat) :
    ∀ (l : List RoleRow),
    (l.filter (fun r => ids.contains r.id)).map RoleRow.id =
      (l.map RoleRow.id).filter (fun i => ids.contains i) := by
  intro l
  induction l with
  | nil => rfl
  | cons r rest ih =>
    rw [List.filter_cons, List.map_cons, List.filter_cons]
    by_cases h : ids.contains r.id = true
    · rw [if_pos h, if_pos h, List.map_cons, ih]
    · rw [if_neg h, if_neg h, ih]

theorem filter_contains_length_eq (L ids : List Nat) (hL : L.Nodup) :
    (L.filter (fun i => ids.contains i)).length = ids.length ↔
      ids.Nodup ∧ ∀ i ∈ ids, i ∈ L := by
  have hFnodup : (L.filter (fun i => ids.contains i)).Nodup := hL.filter _
  have hFmem : ∀ x, x ∈ L.filter (fun i => ids.contains i) ↔ x ∈ L ∧ x ∈ ids := by
    intro x
    rw [List.mem_filter]
    simp
  constructor
  · intro h
    have hFcard : (L.filter (fun i => ids.contains i)).toFinset.card =
        (L.filter (fun i => ids.contains i)).length :=
      List.toFinset_card_of_nodup hFnodup
    have hFset : (L.filter (fun i => ids.contains i)).toFinset =
        L.toFinset ∩ ids.toFinset := by
      ext x
      simp only [List.mem_toFinset, Finset.mem_inter]
      exact hFmem x
    have hle1 : (L.toFinset ∩ ids.toFinset).card ≤ ids.toFinset.card :=
      Finset.card_le_card Finset.inter_subset_right
    have hle2 : ids.toFinset.card ≤ ids.length := ids.toFinset_card_le
    have heq1 : (L.toFinset ∩ ids.toFinset).card = ids.length := by
      rw [← hFset, hFcard, h]
    have heqcard : ids.toFinset.card = ids.length :=
      le_antisymm hle2 (heq1 ▸ hle1)
    have hdedup : ids.dedup.length = ids.length := by
      rw [← List.card_toFinset]
      exact heqcard
    have hnodup : ids.Nodup := by
      have hsub : ids.dedup.Sublist ids := List.dedup_sublist ids
      have : ids.dedup = ids := hsub.eq_of_length hdedup
      rw [← this]
      exact List.nodup_dedup ids
    have hinter : L.toFinset ∩ ids.toFinset = ids.toFinset := by
      apply Finset.eq_of_subset_of_card_le Finset.inter_subset_right
      rw [heq1, heqcard]
    refine ⟨hnodup, ?_⟩
    intro i hi
    have : i ∈ L.toFinset ∩ ids.toFinset := by
      rw [hinter, List.mem_toFinset]
      exact hi
    exact List.mem_toFinset.mp (Finset.mem_inter.mp this).1
  · intro ⟨hnodup, hsub⟩
    have hperm : (L.filter (fun i => ids.contains i)).Perm ids := by
      rw [List.perm_ext_iff_of_nodup hFnodup hnodup]
      intro a
      rw [hFmem a]
      exact ⟨fun h => h.2, fun h => ⟨hsub a h, h⟩⟩
    exact hperm.length_eq

theorem exists_role_iff_mem_map (db : Db) (i : Nat) :
    (∃ r ∈ db.roles, r.id = i) ↔ i ∈ db.roles.map RoleRow.id := by
  rw [List.mem_map]

theorem missingRoles_eq_nil (db : Db) (ids : List Nat)
    (hall : ∀ i ∈ ids, ∃ r ∈ db.roles, r.id = i) :
    missingRoles db ids = [] := by
  unfold missingRoles
  have : ids.filter (fun i => !(db.roles.any (fun r => r.id == i))) = [] := by
    rw [List.filter_eq_nil_iff]
    intro i hi
    obtain ⟨r, hr, rfl⟩ := hall i hi
    have hany : db.roles.any (fun r2 => r2.id == r.id) = true :=
      List.any_eq_true.mpr ⟨r, hr, by simp⟩
    simp [hany]
  rw [this]
  rfl

/-- The exact behaviour of the `roles_qs.count() != len(role_ids)` check. -/
theorem checkRoles_cases (db : Db) (ids : List Nat)
    (hnd : (db.roles.map RoleRow.id).Nodup) :
    ((ids.Nodup ∧ ∀ i ∈ ids, ∃ r ∈ db.roles, r.id = i) →
      checkRoles db ids = .ok (rolesFound db ids)) ∧
    ((¬(ids.Nodup ∧ ∀ i ∈ ids, ∃ r ∈ db.roles, r.id = i)) →
      checkRoles db ids = .error (.rolesNotFound (missingRoles db ids))) ∧
    (∀ rs, checkRoles db ids = .ok rs →
      ids.Nodup ∧ ∀ i ∈ ids, ∃ r ∈ db.roles, r.id = i) := by
  have hlen : (rolesFound db ids).length = ids.length ↔
      ids.Nodup ∧ ∀ i ∈ ids, ∃ r ∈ db.roles, r.id = i := by
    unfold rolesFound
    rw [map_id_filter_contains, filter_contains_length_eq _ _ hnd]
    constructor
    · intro ⟨h1, h2⟩
      exact ⟨h1, fun i hi => (exists_role_iff_mem_map db i).mpr (h2 i hi)⟩
    · intro ⟨h1, h2⟩
      exact ⟨h1, fun i hi => (exists_role_iff_mem_map db i).mp (h2 i hi)⟩
  refine ⟨?_, ?_, ?_⟩
  · intro h
    unfold checkRoles
    have hceq : (rolesFound db ids).length = ids.length := hlen.mpr h
    rw [if_neg (by simp [hceq])]
  · intro h
    unfold checkRoles
    have hcne : (rolesFound db ids).length ≠ ids.length := fun hceq => h (hlen.mp hceq)
    rw [if_pos (by simpa using hcne)]
  · intro rs h
    unfold checkRoles at h
    by_cases hc : (rolesFound db ids).length = ids.length
    · exact hlen.mp hc
    · rw [if_pos (by simpa using hc)] at h
      exact Except.noConfusion h

theorem applyRolesCreate_dup_error (cid : Nat) (ids : List Nat) (db : Db)
    (hne : ids ≠ []) (hnd : (db.roles.map RoleRow.id).Nodup)
    (hdup : ¬ ids.Nodup) (hall : ∀ i ∈ ids, ∃ r ∈ db.roles, r.id = i) :
    applyRolesCreate cid ids db = .error (.rolesNotFound []) := by
  unfold applyRolesCreate
  rw [if_neg (by simpa using hne)]
  rw [(checkRoles_cases db ids hnd).2.1 (fun hcon => hdup hcon.1),
    missingRoles_eq_nil db ids hall]

theorem applyRolesUpdate_dup_error (cid : Nat) (ids : List Nat) (db : Db)
    (hne : ids ≠ []) (hnd : (db.roles.map RoleRow.id).Nodup)
    (hdup : ¬ ids.Nodup) (hall : ∀ i ∈ ids, ∃ r ∈ db.roles, r.id = i) :
    applyRolesUpdate cid (some ids) db = .error (.rolesNotFound []) := by
  unfold applyRolesUpdate
  dsimp only
  rw [if_neg (by simpa using hne)]
  rw [(checkRoles_cases db ids hnd).2.1 (fun hcon => hdup hcon.1),
    missingRoles_eq_nil db ids hall]

theorem applyRolesCreate_ok_inv (cid : Nat) (ids : List Nat) (db db3 : Db)
    (hne : ids ≠ []) (hnd : (db.roles.map RoleRow.id).Nodup)
    (h : applyRolesCreate cid ids db = .ok db3) :
    ids.Nodup ∧ ∀ i ∈ ids, ∃ r ∈ db.roles, r.id = i := by
  unfold applyRolesCreate at h
  rw [if_neg (by simpa using hne)] at h
  cases hchk : checkRoles db ids with
  | error e => rw [hchk] at h; exact Except.noConfusion h
  | ok rs => exact (checkRoles_cases db ids hnd).2.2 rs hchk

theorem applyRolesUpdate_ok_inv (cid : Nat) (ids : List Nat) (db db3 : Db)
    (hne : ids ≠ []) (hnd : (db.roles.map RoleRow.id).Nodup)
    (h : applyRolesUpdate cid (some ids) db = .ok db3) :
    ids.Nodup ∧ ∀ i ∈ ids, ∃ r ∈ db.roles, r.id = i := by
  unfold applyRolesUpdate at h
  dsimp only at h
  rw [if_neg (by simpa using hne)] at h
  cases hchk : checkRoles db ids with
  | error e => rw [hchk] at h; exact Except.noConfusion h
  | ok rs => exact (checkRoles_cases db ids hnd).2.2 rs hchk

/-- Claim C10: a composite create or update whose roles list repeats an
existing role id fails with the structured roles error even though every
listed id exists (the Python message formats the empty missing-set, "Roles
not found: []"), because the check compares the count of distinct matching
rows with the length of the raw list; and any successful call implies the
submitted list was duplicate-free with every id existing. -/
theorem c10_duplicate_role_ids (user cid : Nat) (p : ChecklistPayload) (db : Db)
    (ids : List Nat) (hwf : DbWF db) (hids : p.roles = some ids) (hne : ids ≠ []) :
    ((¬ ids.Nodup) → (∀ i ∈ ids, ∃ r ∈ db.roles, r.id = i) →
      (∀ nm ph, p.checklist_type = none → p.name = some nm → p.phase = some ph →
        create_full_checklist user p db = .error (.rolesNotFound [])) ∧
      (∀ c0, p.checklist_type = none →
        db.checklists.find? (fun c => c.id == cid) = some c0 →
        c0.checklist_type = none →
        update_full_checklist user cid p db = .error (.rolesNotFound []))) ∧
    (∀ cid' db', create_full_checklist user p db = .ok (cid', db') →
      ids.Nodup ∧ ∀ i ∈ ids, ∃ r ∈ db.roles, r.id = i) ∧
    (∀ cid' db', update_full_checklist user cid p db = .ok (cid', db') →
      ids.Nodup ∧ ∀ i ∈ ids, ∃ r ∈ db.roles, r.id = i) := by
  refine ⟨?_, ?_, ?_⟩
  · intro hdup hall
    constructor
    · intro nm ph hct hnm hph
      have h1 : resolveCtCreate user p.checklist_type false db = .ok (db, none) := by
        rw [hct]
        rfl
      have h2 : createChecklistRow user p none db =
          .ok (⟨db.roles, db.checklistTypes,
            db.checklists ++ [⟨db.nextId, nm, p.description.getD "", ph,
              p.notes.getD "", none, [], user, user⟩],
            db.sections, db.items, db.progress, db.nextId + 1⟩, db.nextId) := by
        unfold createChecklistRow
        rw [hnm, hph]
        rfl
      unfold create_full_checklist
      rw [h1]
      dsimp only
      rw [h2]
      dsimp only
      simp only [hids, Option.getD_some]
      rw [applyRolesCreate_dup_error db.nextId ids _ hne (by exact hwf.roles_nodup)
        hdup (by exact hall)]
    · intro c0 hct hf hc0
      have h1 : resolveCtUpdate user p.checklist_type false c0.checklist_type db =
          .ok (db, c0.checklist_type) := by
        rw [hct]
        rfl
      unfold update_full_checklist
      rw [hf]
      dsimp only
      rw [h1]
      dsimp only
      rw [hc0]
      rw [if_neg (by simp)]
      simp only [hids]
      rw [applyRolesUpdate_dup_error cid ids _ hne (by exact hwf.roles_nodup)
        hdup (by exact hall)]
  · intro cid' db' hok
    unfold create_full_checklist at hok
    split at hok
    · exact Except.noConfusion hok
    · rename_i x1 db1 ctId hres
      split at hok
      · exact Except.noConfusion hok
      · rename_i x2 db2 cid2 hcrt
        split at hok
        · exact Except.noConfusion hok
        · rename_i x3 db3 hroles
          obtain ⟨e1, _, _, _, _, _⟩ := resolveCtCreate_ok_spec _ _ _ _ _ _ hres
          obtain ⟨k1, _, _, _, _, _, _⟩ := createChecklistRow_ok_spec _ _ _ _ _ _ hcrt
          rw [hids] at hroles
          simp only [Option.getD_some] at hroles
          have hnd2 : (db2.roles.map RoleRow.id).Nodup := by
            rw [k1, e1]; exact hwf.roles_nodup
          obtain ⟨hnodup, hall2⟩ := applyRolesCreate_ok_inv _ _ _ _ hne hnd2 hroles
          refine ⟨hnodup, ?_⟩
          intro i hi
          obtain ⟨r, hr, hrid⟩ := hall2 i hi
          rw [k1, e1] at hr
          exact ⟨r, hr, hrid⟩
  · intro cid' db' hok
    unfold update_full_checklist at hok
    split at hok
    · exact Except.noConfusion hok
    · split at hok
      · exact Except.noConfusion hok
      · rename_i c0 hfind x1 db1 ctId hres
        dsimp only at hok
        split at hok
        · exact Except.noConfusion hok
        · split at hok
          · exact Except.noConfusion hok
          · rename_i xr db3 hroles
            obtain ⟨e1, _, _, _, _, _⟩ := resolveCtUpdate_ok_spec _ _ _ _ _ _ _ hres
            rw [hids] at hroles
            obtain ⟨hnodup, hall2⟩ := applyRolesUpdate_ok_inv _ _ _ _ hne
              (by show (db1.roles.map RoleRow.id).Nodup
                  rw [e1]
                  exact hwf.roles_nodup)
              hroles
            refine ⟨hnodup, ?_⟩
            intro i hi
            obtain ⟨r, hr, hrid⟩ := hall2 i hi
            have hr' : r ∈ db1.roles := hr
            rw [e1] at hr'
            exact ⟨r, hr', hrid⟩

/-- Witness for C10: role 1 exists, yet the duplicated list [1, 1] makes the
composite create fail with the roles error whose missing-set is empty. -/
theorem c10_duplicate_role_ids_witness :
    create_full_checklist 9
      ⟨some "N", none, some "pre-stream", none, none, some [1, 1], none⟩
      ⟨[⟨1, "R1"⟩], [], [], [], [], [], 2⟩ = .error (.rolesNotFound []) :=
  ((c10_duplicate_role_ids 9 0
      ⟨some "N", none, some "pre-stream", none, none, some [1, 1], none⟩
      ⟨[⟨1, "R1"⟩], [], [], [], [], [], 2⟩ [1, 1]
      ⟨by decide, by decide, by decide, by decide, by decide⟩ rfl (by decide)).1
    (by decide) (by decide)).1 "N" "pre-stream" rfl rfl rfl

/-- Claim C7, at the failing input (the IntegrityError path of the update
case): with no ChecklistType named "X" visible, a concurrent transaction
commits one while our `get_or_create` runs.  The create path's except branch
(services.py line 288) re-fetches and assigns the row (id 1), but the update
path's except branch (lines 377-379) fetches it into the local `ct` and
never assigns `checklist.checklist_type`, so the update keeps the previous
type (`none`) instead of referencing the fetched row's id. -/
theorem c7_update_race_drops_fetched_type :
    resolveCtCreate 5 (some ⟨none, some "X", none⟩) true dbEmpty =
      .ok (⟨[], [⟨1, "X", "", 0⟩], [], [], [], [], 2⟩, some 1) ∧
    resolveCtUpdate 5 (some ⟨none, some "X", none⟩) true none dbEmpty =
      .ok (⟨[], [⟨1, "X", "", 0⟩], [], [], [], [], 2⟩, none) ∧
    (none : Option Nat) ≠ some 1 :=
  ⟨by rfl, by rfl, by decide⟩

/-- Counterexample to claim C3 as stated: a checklist with two items of
which user 7 has completed exactly one (one progress record, status
completed).  The claim's per-user item fraction is 50, but the code divides
completed progress records by total progress records and returns 100 — the
stats are record-based and not user-scoped. -/
theorem c3_percentage_counterexample :
    completion_percentage
      ⟨[], [], [⟨1, "C", "", "pre-stream", "", none, [], 0, 0⟩],
        [⟨2, 1, "S", "", 0, 0⟩], [⟨3, 2, "I1", "", 0⟩, ⟨4, 2, "I2", "", 0⟩],
        [⟨5, 1, some 3, ProgressStatus.completed, 7⟩], 6⟩ 1 = 100 ∧
    specCompletionPercentage
      ⟨[], [], [⟨1, "C", "", "pre-stream", "", none, [], 0, 0⟩],
        [⟨2, 1, "S", "", 0, 0⟩], [⟨3, 2, "I1", "", 0⟩, ⟨4, 2, "I2", "", 0⟩],
        [⟨5, 1, some 3, ProgressStatus.completed, 7⟩], 6⟩ 1 7 = 50 ∧
    (100 : Rat) ≠ 50 := by
  refine ⟨?_, ?_, by norm_num⟩
  · norm_num [completion_percentage, progressRecordsOf]
  · norm_num [specCompletionPercentage, itemsUnderChecklist]

/-- Claim C3 as amended: the completion percentage of
`get_checklist_progress_stats` is computed from the checklist's progress
records across all users, not from per-user item counts: it is 0 when the
checklist has no progress records (so a checklist with zero items raises no
division error), lies in [0, 100], satisfies
percentage × record count = completed record count × 100, and is exactly
100 when every progress record of the checklist has status completed. -/
theorem c3_percentage_record_based (db : Db) (cid : Nat) :
    0 ≤ completion_percentage db cid ∧
    completion_percentage db cid ≤ 100 ∧
    (progressRecordsOf db cid = [] → completion_percentage db cid = 0) ∧
    (progressRecordsOf db cid ≠ [] →
      completion_percentage db cid * ((progressRecordsOf db cid).length : Rat) =
        (((progressRecordsOf db cid).filter
          (fun r => r.status == ProgressStatus.completed)).length : Rat) * 100) ∧
    (progressRecordsOf db cid ≠ [] →
      (∀ r ∈ progressRecordsOf db cid, r.status = ProgressStatus.completed) →
      completion_percentage db cid = 100) := by
  by_cases hnil : progressRecordsOf db cid = []
  · have h0 : completion_percentage db cid = 0 := by
      unfold completion_percentage
      rw [hnil]
      rfl
    refine ⟨by rw [h0], by rw [h0]; norm_num, fun _ => h0, fun hne => absurd hnil hne,
      fun hne _ => absurd hnil hne⟩
  · have hlen : 0 < (progressRecordsOf db cid).length := List.length_pos.mpr hnil
    have hlenQ : (0 : Rat) < ((progressRecordsOf db cid).length : Rat) := by
      exact_mod_cast hlen
    have hval : completion_percentage db cid =
        (((progressRecordsOf db cid).filter
          (fun r => r.status == ProgressStatus.completed)).length : Rat)
          / ((progressRecordsOf db cid).length : Rat) * 100 := by
      unfold completion_percentage
      rw [if_pos hlen]
    have hcle : (((progressRecordsOf db cid).filter
        (fun r => r.status == ProgressStatus.completed)).length : Rat) ≤
        ((progressRecordsOf db cid).length : Rat) := by
      exact_mod_cast List.length_filter_le _ _
    have hcnn : (0 : Rat) ≤ (((progressRecordsOf db cid).filter
        (fun r => r.status == ProgressStatus.completed)).length : Rat) := by
      exact_mod_cast Nat.zero_le _
    refine ⟨?_, ?_, fun h => absurd h hnil, fun _ => ?_, fun _ hall => ?_⟩
    · rw [hval]
      have := div_nonneg hcnn (le_of_lt hlenQ)
      nlinarith
    · rw [hval]
      have hd1 : (((progressRecordsOf db cid).filter
          (fun r => r.status == ProgressStatus.completed)).length : Rat)
          / ((progressRecordsOf db cid).length : Rat) ≤ 1 :=
        (div_le_one hlenQ).mpr hcle
      nlinarith
    · rw [hval]
      field_simp
    · have hfe : (progressRecordsOf db cid).filter
          (fun r => r.status == ProgressStatus.completed) =
          progressRecordsOf db cid := by
        rw [List.filter_eq_self]
        intro r hr
        simp [hall r hr]
      rw [hval, hfe, div_self (ne_of_gt hlenQ), one_mul]

/-- Witness for C3 (amended) at a checklist whose single progress record is
completed: the code's percentage is exactly 100, and the product identity
holds at that input. -/
theorem c3_percentage_record_based_witness :
    completion_percentage
      ⟨[], [], [⟨1, "C", "", "pre-stream", "", none, [], 0, 0⟩],
        [⟨2, 1, "S", "", 0, 0⟩], [⟨3, 2, "I1", "", 0⟩, ⟨4, 2, "I2", "", 0⟩],
        [⟨5, 1, some 3, ProgressStatus.completed, 7⟩], 6⟩ 1 = 100 :=
  (c3_percentage_record_based
      ⟨[], [], [⟨1, "C", "", "pre-stream", "", none, [], 0, 0⟩],
        [⟨2, 1, "S", "", 0, 0⟩], [⟨3, 2, "I1", "", 0⟩, ⟨4, 2, "I2", "", 0⟩],
        [⟨5, 1, some 3, ProgressStatus.completed, 7⟩], 6⟩ 1).2.2.2.2
    (by decide) (by decide)

end Checklist
